import Mathlib

/-
Verification development for the 0x playground repository.

The repository contains the playground UI (src/App.tsx) and the bundled
example programs (src/examples.ts).  The compiler package `0x-lang/compiler`
is imported by the UI but its sources are not part of this repository; where
a property depends on it, a model is built from the specification (those
definitions carry a doc comment starting with `Modelled from the spec:`).
-/

namespace ZeroX

/-! ## JavaScript string primitives used by App.tsx -/

/-- Whitespace predicate modelling the characters matched by the regex
class uses in App.tsx (space, tab, newline, carriage return). -/
def jsWs (c : Char) : Bool :=
  c = '\x20' || c = '\t' || c = '\n' || c = '\r'

/-- Worker for jsSplitWs: walks the characters, accumulating the current
piece (reversed); a whitespace run ends the current piece exactly once
(the Boolean records whether the previous character was whitespace, so a
run of whitespace acts as a single separator, as a quantified regex split
does). -/
def splitWsGo : List Char → List Char → Bool → List (List Char)
  | [], cur, _ => [cur.reverse]
  | c :: cs, cur, prevWs =>
    if jsWs c then
      if prevWs then splitWsGo cs cur true
      else cur.reverse :: splitWsGo cs [] true
    else splitWsGo cs (c :: cur) false

/-- Model of the JavaScript call of split on a whitespace-run regex: splits
the character list on maximal whitespace runs, keeping the (possibly empty)
leading and trailing pieces, as the JavaScript method does. -/
def jsSplitWs (s : List Char) : List (List Char) :=
  splitWsGo s [] false

/-- Model of the JavaScript call of split on the newline character:
every newline separates two pieces (no run merging). -/
def splitNlGo : List Char → List (List Char)
  | [] => [[]]
  | c :: cs =>
    if c = '\n' then [] :: splitNlGo cs
    else
      match splitNlGo cs with
      | [] => [[c]]
      | p :: ps => (c :: p) :: ps

/-- Model of the JavaScript trim method: removes whitespace from both ends. -/
def jsTrim (l : List Char) : List Char :=
  ((l.dropWhile jsWs).reverse.dropWhile jsWs).reverse

/-- Number of non-blank lines of a string, as computed in App.tsx by
splitting on newline and keeping the lines whose trim is non-empty. -/
def jsLineCount (s : String) : Nat :=
  ((splitNlGo s.data).filter (fun l => jsTrim l ≠ [])).length

/-- Number of whitespace-delimited tokens of a string, as computed in
App.tsx by splitting on whitespace runs and keeping the non-empty pieces. -/
def jsTokenCount (s : String) : Nat :=
  ((jsSplitWs s.data).filter (fun p => p ≠ [])).length

/-- Specification-side count of the maximal non-empty whitespace-delimited
substrings of a character list: a state machine whose Boolean argument
records whether the previous character was inside a token. -/
def maxRunCount : List Char → Bool → Nat
  | [], _ => 0
  | c :: cs, inTok =>
    if jsWs c then maxRunCount cs false
    else (if inTok then 0 else 1) + maxRunCount cs true

/-! ## The compiler, modelled from the specification

The package `0x-lang/compiler` imported by App.tsx is not part of this
repository; the driver, analyzer and generators below are built from the
specification's description of the pipeline (sections 3, 4.3, 4.4, 4.5). -/

/-- The three compilation targets of the playground (the union type in
App.tsx). -/
inductive Target
  | react
  | vue
  | svelte
deriving DecidableEq, Repr

/-- Error taxonomy of the specification (section 7). -/
inductive ErrKind
  | LexError
  | ParseError
  | SemanticError
  | UnsupportedConstructError
deriving DecidableEq, Repr

/-- Error result shape of the specification (section 6): a kind from the
taxonomy and a message. -/
structure CompileError where
  kind : ErrKind
  message : String
deriving DecidableEq, Repr

/-- Options passed to compile: a target and the validate flag. -/
structure CompileOptions where
  target : Target
  validate : Bool
deriving DecidableEq, Repr

/-- Successful compile result: generated code plus the line and token
counts of the output (specification section 4.5). -/
structure CompileOutput where
  code : String
  lineCount : Nat
  tokenCount : Nat
deriving DecidableEq, Repr

/-- Modelled from the spec: declared types of the DSL (section 4.3 (f)). -/
inductive Ty
  | int
  | str
  | bool
  | float
  | datetime
  | list (elem : Ty)
deriving DecidableEq, Repr

/-- Modelled from the spec: binary operators of the expression grammar
(section 4.2). -/
inductive BinOp
  | add
  | sub
  | mul
  | lt
  | le
  | gt
  | ge
  | eq
  | and
  | or
deriving DecidableEq, Repr

/-- Modelled from the spec: expressions (literal, identifier, member
access, binary operation; section 3). -/
inductive Expr
  | intLit (n : Int)
  | strLit (s : String)
  | boolLit (b : Bool)
  | ident (x : String)
  | member (e : Expr) (f : String)
  | bin (op : BinOp) (l r : Expr)
deriving DecidableEq, Repr

/-- Modelled from the spec: a state variable initializer, either a single
expression or a list literal of expressions. -/
inductive InitVal
  | single (e : Expr)
  | listLit (es : List Expr)
deriving DecidableEq, Repr

/-- Modelled from the spec: a state variable declaration (name, declared
type, initializer; section 3). -/
structure StateDecl where
  name : String
  ty : Ty
  init : InitVal
deriving DecidableEq, Repr

/-- Modelled from the spec: a derived value declaration (name and
expression; section 3). -/
structure DerivedDecl where
  name : String
  expr : Expr
deriving DecidableEq, Repr

/-- Modelled from the spec: a check rule, a boolean expression plus a
human-readable message (section 3). -/
structure CheckDecl where
  cond : Expr
  message : String
deriving DecidableEq, Repr

/-- Modelled from the spec: a page declaration owning state variables,
derived values and check rules (section 3); the layout tree, functions and
effects are not needed by the verified properties and are omitted. -/
structure Program where
  pageName : String
  states : List StateDecl
  deriveds : List DerivedDecl
  checks : List CheckDecl
deriving DecidableEq, Repr

/-- Concatenation of the lists produced by one function over a list. -/
def flatList (f : α → List β) : List α → List β
  | [] => []
  | a :: l => f a ++ flatList f l

/-- Identifiers read by an expression, in left-to-right order. -/
def exprIdents : Expr → List String
  | .ident x => [x]
  | .member e _ => exprIdents e
  | .bin _ l r => exprIdents l ++ exprIdents r
  | _ => []

/-- Identifiers read by an initializer. -/
def initIdents : InitVal → List String
  | .single e => exprIdents e
  | .listLit es => flatList exprIdents es

/-- Names declared in the scope of a page: its state variables followed by
its derived values. -/
def scopeNames (p : Program) : List String :=
  p.states.map (fun s => s.name) ++ p.deriveds.map (fun d => d.name)

/-- All identifier references of a page, in declaration order: state
initializers, then derived expressions, then check expressions. -/
def allRefs (p : Program) : List String :=
  flatList (fun s => initIdents s.init) p.states ++
    flatList (fun d => exprIdents d.expr) p.deriveds ++
    flatList (fun c => exprIdents c.cond) p.checks

/-- Identifier references appearing inside check rules only. -/
def checkRefs (p : Program) : List String :=
  flatList (fun c => exprIdents c.cond) p.checks

/-- First name repeated later in the list, if any. -/
def firstDup : List String → Option String
  | [] => none
  | x :: xs => if x ∈ xs then some x else firstDup xs

/-- First reference not present in the environment, if any (the analyzer
is fail-fast: the first unresolved identifier aborts). -/
def firstUndefined (env : List String) : List String → Option String
  | [] => none
  | r :: rs => if r ∈ env then firstUndefined env rs else some r

/-- Modelled from the spec: the SemanticError reported for a dependency
cycle among derived values, naming the participating identifiers
(section 4.3 (c)). -/
def cycleError (pending : List DerivedDecl) : CompileError :=
  ⟨.SemanticError,
    "dependency cycle among derived values: " ++
      String.intercalate (", ") (pending.map (fun d => d.name))⟩

/-- Modelled from the spec: one round structure of a topological sort of
the derived-value dependency graph (Kahn style).  A declaration is ready
when none of the identifiers it reads is the name of a still-pending
derived value; if no declaration is ready while some are pending, the
pending declarations form cycles and a SemanticError naming them is
raised. -/
def topoGo : Nat → List DerivedDecl → Except CompileError (List DerivedDecl)
  | _, [] => .ok []
  | 0, pending => .error (cycleError pending)
  | fuel + 1, pending =>
    let names := pending.map (fun d => d.name)
    let ready := pending.filter (fun d => (exprIdents d.expr).all (fun y => decide (y ∉ names)))
    if ready.isEmpty then .error (cycleError pending)
    else
      match topoGo fuel (pending.filter (fun d => !(exprIdents d.expr).all (fun y => decide (y ∉ names)))) with
      | .ok rest => .ok (ready ++ rest)
      | .error e => .error e

/-- Modelled from the spec: topological sort of the derived values of a
page (section 4.3 (c)); the fuel is the number of declarations, enough for
every acyclic graph since every successful round removes at least one. -/
def topo (p : Program) : Except CompileError (List DerivedDecl) :=
  topoGo p.deriveds.length p.deriveds

/-- Modelled from the spec: result type of member access typing. -/
def memberType (t : Ty) (f : String) : Except CompileError Ty :=
  if f = "length" then
    match t with
    | .list _ => .ok .int
    | .str => .ok .int
    | _ => .error ⟨.SemanticError, "type mismatch: no length on this type"⟩
  else .error ⟨.SemanticError, "type mismatch: unknown member " ++ f⟩

/-- Modelled from the spec: result type of a binary operation. -/
def binOpType (op : BinOp) (tl tr : Ty) : Except CompileError Ty :=
  match op with
  | .add | .sub | .mul =>
    match tl, tr with
    | .int, .int => .ok .int
    | .float, .float => .ok .float
    | _, _ => .error ⟨.SemanticError, "type mismatch: arithmetic on non-numbers"⟩
  | .lt | .le | .gt | .ge =>
    match tl, tr with
    | .int, .int => .ok .bool
    | .float, .float => .ok .bool
    | _, _ => .error ⟨.SemanticError, "type mismatch: comparison on non-numbers"⟩
  | .eq => if tl = tr then .ok .bool else .error ⟨.SemanticError, "type mismatch: equality on different types"⟩
  | .and | .or =>
    match tl, tr with
    | .bool, .bool => .ok .bool
    | _, _ => .error ⟨.SemanticError, "type mismatch: logic on non-booleans"⟩

/-- Modelled from the spec: minimal static typing of expressions against an
environment of declared and inferred types (section 4.3 (f)). -/
def typeOf (env : List (String × Ty)) : Expr → Except CompileError Ty
  | .intLit _ => .ok .int
  | .strLit _ => .ok .str
  | .boolLit _ => .ok .bool
  | .ident x =>
    match env.find? (fun p => p.fst = x) with
    | some p => .ok p.snd
    | none => .error ⟨.SemanticError, "undefined identifier: " ++ x⟩
  | .member e f =>
    match typeOf env e with
    | .ok t => memberType t f
    | .error er => .error er
  | .bin op l r =>
    match typeOf env l with
    | .ok tl =>
      match typeOf env r with
      | .ok tr => binOpType op tl tr
      | .error er => .error er
    | .error er => .error er

/-- Modelled from the spec: infer the types of the derived values in
topological order, extending the environment as each is typed. -/
def extendEnv (env : List (String × Ty)) : List DerivedDecl → Except CompileError (List (String × Ty))
  | [] => .ok env
  | d :: ds =>
    match typeOf env d.expr with
    | .ok t => extendEnv (env ++ [(d.name, t)]) ds
    | .error e => .error e

/-- Modelled from the spec: every check expression must type-check to
boolean (section 4.3 (d)). -/
def checkChecks (env : List (String × Ty)) : List CheckDecl → Except CompileError Unit
  | [] => .ok ()
  | c :: cs =>
    match typeOf env c.cond with
    | .ok t =>
      if t = Ty.bool then checkChecks env cs
      else .error ⟨.SemanticError, "check expression must be boolean"⟩
    | .error e => .error e

/-- Modelled from the spec: the semantic analyzer (section 4.3).  In
order: (a) duplicate state/derived names are a SemanticError; (b) every
identifier reference must resolve, fail-fast on the first that does not;
(c) the derived-value dependency graph is topologically sorted, a cycle is
a SemanticError; (d)/(f) when validate is set, derived types are inferred
and every check expression must be boolean.  On success, returns the
derived declarations in emission order. -/
def analyze (p : Program) (validate : Bool) : Except CompileError (List DerivedDecl) :=
  match firstDup (scopeNames p) with
  | some x => .error ⟨.SemanticError, "duplicate declaration: " ++ x⟩
  | none =>
    match firstUndefined (scopeNames p) (allRefs p) with
    | some x => .error ⟨.SemanticError, "undefined identifier: " ++ x⟩
    | none =>
      match topo p with
      | .error e => .error e
      | .ok ord =>
        if validate then
          match extendEnv (p.states.map (fun s => (s.name, s.ty))) ord with
          | .error e => .error e
          | .ok env =>
            match checkChecks env p.checks with
            | .error e => .error e
            | .ok _ => .ok ord
        else .ok ord

/-- Join a list of strings with a separator between consecutive elements. -/
def joinSep (sep : String) : List String → String
  | [] => ""
  | [x] => x
  | x :: y :: xs => x ++ sep ++ joinSep sep (y :: xs)

/-- Concatenation of a list of strings. -/
def concatStrs : List String → String
  | [] => ""
  | s :: ss => s ++ concatStrs ss

/-- Modelled from the spec: textual form of a binary operator in the
generated code (operator semantics preserved exactly, section 9). -/
def emitOp : BinOp → String
  | .add => " + "
  | .sub => " - "
  | .mul => " * "
  | .lt => " < "
  | .le => " <= "
  | .gt => " > "
  | .ge => " >= "
  | .eq => " == "
  | .and => " && "
  | .or => " || "

/-- Modelled from the spec: expression emission shared by the three
backends; string literal payloads are emitted verbatim between quotes
(section 4.4). -/
def emitExpr : Expr → String
  | .intLit n => toString n
  | .strLit s => "\"" ++ s ++ "\""
  | .boolLit b => cond b ("true") ("false")
  | .ident x => x
  | .member e f => emitExpr e ++ "." ++ f
  | .bin op l r => "(" ++ emitExpr l ++ emitOp op ++ emitExpr r ++ ")"

/-- Modelled from the spec: initializer emission (list literals are
bracketed, comma separated). -/
def emitInit : InitVal → String
  | .single e => emitExpr e
  | .listLit es => "[" ++ joinSep (", ") (es.map emitExpr) ++ "]"

/-- Modelled from the spec: state variable emission per target
(mapping table, section 4.4): explicit get/set pair for react, a reactive
cell for vue, a plain mutable binding for svelte. -/
def emitState (t : Target) (sd : StateDecl) : String :=
  match t with
  | .react => "  const [" ++ sd.name ++ ", set_" ++ sd.name ++ "] = useState(" ++ emitInit sd.init ++ ");\n"
  | .vue => "const " ++ sd.name ++ " = ref(" ++ emitInit sd.init ++ ");\n"
  | .svelte => "let " ++ sd.name ++ " = " ++ emitInit sd.init ++ ";\n"

/-- Modelled from the spec: derived value emission per target (mapping
table, section 4.4): memoized recomputation keyed by its dependency set
for react, a computed cell for vue, a reactive statement for svelte. -/
def emitDerived (t : Target) (d : DerivedDecl) : String :=
  match t with
  | .react => "  const " ++ d.name ++ " = useMemo(() => " ++ emitExpr d.expr ++ ", [" ++ joinSep (", ") (exprIdents d.expr) ++ "]);\n"
  | .vue => "const " ++ d.name ++ " = computed(() => " ++ emitExpr d.expr ++ ");\n"
  | .svelte => "$: " ++ d.name ++ " = " ++ emitExpr d.expr ++ ";\n"

/-- Modelled from the spec: check rules compile to assertion calls whose
message text is carried bit-identically to the source in all three
backends (section 4.4). -/
def emitCheck (t : Target) (c : CheckDecl) : String :=
  match t with
  | .react => "  runtimeCheck(" ++ emitExpr c.cond ++ ", \"" ++ c.message ++ "\");\n"
  | .vue => "runtimeCheck(" ++ emitExpr c.cond ++ ", \"" ++ c.message ++ "\");\n"
  | .svelte => "runtimeCheck(" ++ emitExpr c.cond ++ ", \"" ++ c.message ++ "\");\n"

/-- Modelled from the spec: opening of the generated module per target. -/
def genHeader (t : Target) (p : Program) : String :=
  match t with
  | .react => "function " ++ p.pageName ++ "() \x7b\n"
  | .vue => "<script setup>\n"
  | .svelte => "<script>\n"

/-- Modelled from the spec: closing of the generated module per target. -/
def genFooter (t : Target) : String :=
  match t with
  | .react => "\x7d\n"
  | .vue => "</script>\n"
  | .svelte => "</script>\n"

/-- Modelled from the spec: the code generator (section 4.4): states in
declaration order, derived values in the topological order computed by the
analyzer, then the check assertions. -/
def generate (p : Program) (ord : List DerivedDecl) (t : Target) : String :=
  genHeader t p ++
    concatStrs (p.states.map (emitState t)) ++
    concatStrs (ord.map (emitDerived t)) ++
    concatStrs (p.checks.map (emitCheck t)) ++
    genFooter t

/-- Modelled from the spec: the driver (section 4.5): runs the analyzer,
then the generator, and returns the generated code together with its
non-blank line count and whitespace-delimited token count; on any stage
failure the single error object is returned and no output is produced. -/
def compile (src : Program) (opts : CompileOptions) : Except CompileError CompileOutput :=
  match analyze src opts.validate with
  | .error e => .error e
  | .ok ord =>
    let code := generate src ord opts.target
    .ok ⟨code, jsLineCount code, jsTokenCount code⟩

/-! ## The playground UI model (src/App.tsx) -/

/-- The record of target labels from App.tsx, as an ordered association
list (the key order is the object literal order, which is what the tab
buttons iterate over). -/
def TARGET_LABELS : List (String × String) :=
  [("react", "React"), ("vue", "Vue 3"), ("svelte", "Svelte 5")]

/-- The record of target file extensions from App.tsx. -/
def TARGET_EXT : List (String × String) :=
  [("react", ".jsx"), ("vue", ".vue"), ("svelte", ".svelte")]

/-- Keys of the target label record, the values the tab buttons can set. -/
def targetKeys : List String :=
  TARGET_LABELS.map (fun p => p.fst)

/-- JavaScript record indexing: the value at a string key, if present. -/
def recordGet (r : List (String × String)) (k : String) : Option String :=
  (r.find? (fun p => p.fst = k)).map (fun p => p.snd)

/-- JavaScript truthiness of an optional string: an absent value and the
empty string are falsy. -/
def jsTruthyStr (o : Option String) : Bool :=
  match o with
  | some s => s ≠ ""
  | none => false

/-- The canonical key string of a target. -/
def targetKey : Target → String
  | .react => "react"
  | .vue => "vue"
  | .svelte => "svelte"

/-- Events of the playground that can change the target state: a click on
one of the tab buttons (which iterate over the keys of TARGET_LABELS), or
the mount-time URL parameter load. -/
inductive AppEvent
  | tabClick (k : String)
  | urlTarget (s : Option String)

/-- An event the rendered page can actually produce: tab buttons exist
only for keys of TARGET_LABELS; the URL parameter is arbitrary. -/
def validEvent : AppEvent → Prop
  | .tabClick k => k ∈ targetKeys
  | .urlTarget _ => True

/-- Transition of the target state under one event, following App.tsx: a
tab click stores its key; a URL parameter is stored only when it indexes a
truthy entry of TARGET_LABELS. -/
def stepTarget (t : String) (e : AppEvent) : String :=
  match e with
  | .tabClick k => k
  | .urlTarget none => t
  | .urlTarget (some s) => if jsTruthyStr (recordGet TARGET_LABELS s) then s else t

/-- The target state after a sequence of events, starting from the
initial useState value of App.tsx. -/
def runTarget (evs : List AppEvent) : String :=
  evs.foldl stepTarget ("react")

/-- The options App.tsx passes to compile: the current target and
validate set to true. -/
def mkOptions (t : Target) : CompileOptions :=
  ⟨t, true⟩

/-- The savings percentage statistics record of App.tsx. -/
structure Stats where
  lines : Nat
  tokens : Nat
  srcLines : Nat
  srcTokens : Nat
deriving DecidableEq, Repr

/-- The output-panel state set by doCompile in App.tsx. -/
structure PanelState where
  output : String
  error : String
  stats : Stats
deriving DecidableEq, Repr

/-- JavaScript string disjunction: the left operand unless it is falsy
(empty). -/
def jsOrString (a b : String) : String :=
  if a = "" then b else a

/-- JavaScript String(e) on a thrown Error value. -/
def jsStringOfError (e : CompileError) : String :=
  "Error: " ++ e.message

/-- Model of doCompile in App.tsx, parametrized by the imported compile
function: on success the output and the four statistics are stored and the
error is cleared; on a thrown error the output is cleared, the statistics
are zeroed and the message is stored. -/
def doCompile (cf : String → CompileOptions → Except CompileError CompileOutput)
    (src : String) (tgt : Target) : PanelState :=
  match cf src (mkOptions tgt) with
  | .ok result =>
    { output := result.code
      error := ""
      stats := ⟨result.lineCount, result.tokenCount, jsLineCount src, jsTokenCount src⟩ }
  | .error e =>
    { output := ""
      error := jsOrString e.message (jsStringOfError e)
      stats := ⟨0, 0, 0, 0⟩ }

/-- JavaScript Math.round over the rationals: floor of the value plus one
half (halves round toward positive infinity). -/
def jsRound (x : ℚ) : Int :=
  Int.floor (x + 1 / 2)

/-- The savings computation of App.tsx: when srcTokens is positive the
percentage round of one minus srcTokens over tokens is evaluated,
otherwise zero is displayed without evaluating the division.  The none
result marks the one evaluation path whose division has a zero divisor. -/
def savingsEval (srcTokens tokens : Nat) : Option Int :=
  if 0 < srcTokens then
    if tokens = 0 then none
    else some (jsRound ((1 - (srcTokens : ℚ) / (tokens : ℚ)) * 100))
  else some 0

/-- The savings value displayed for a statistics record. -/
def savingsOf (st : Stats) : Option Int :=
  savingsEval st.srcTokens st.tokens

/-- Model of handleTab in App.tsx: on the Tab key, the selected range of
the editor value is replaced by two spaces; other keys leave the value
unchanged. -/
def handleTab (key : String) (val : List Char) (s e : Nat) : List Char :=
  if key = "Tab" then val.take s ++ ['\x20', '\x20'] ++ val.drop e
  else val

/-- The bundled example programs of src/examples.ts, as an ordered
association list from example key to source text. -/
def EXAMPLES : List (String × String) :=
  [("counter",
    "page Counter:\n  state count: int = 0\n  derived doubled = count * 2\n  derived isPositive = count > 0\n\n  fn increment():\n    count += 1\n\n  fn decrement():\n    count -= 1\n\n  fn reset():\n    count = 0\n\n  layout col gap=16 padding=24 center:\n    text \"카운터\" size=2xl bold\n    text \"\x7bcount\x7d\" size=3xl bold color=#333\n    text \"두 배: \x7bdoubled\x7d\" size=lg color=#666\n\n    layout row gap=8:\n      button \"-1\" style=danger -> decrement()\n      button \"리셋\" -> reset()\n      button \"+1\" style=primary -> increment()"),
   ("todo",
    "page Todo:\n  type Item = \x7bid: int, text: str, done: bool\x7d\n\n  state items: list[Item] = []\n  state input: str = \"\"\n  derived remaining = items.filter(i => !i.done).length\n\n  check items.length <= 500 \"할일은 500개 이하\"\n\n  fn add():\n    if input.trim() != \"\":\n      items.push(\x7bid: Date.now(), text: input, done: false\x7d)\n      input = \"\"\n\n  fn remove(id: int):\n    items = items.filter(i => i.id != id)\n\n  layout col gap=16 padding=24 maxWidth=600 margin=auto:\n    text \"할 일 (\x7bremaining\x7d개 남음)\" size=2xl bold\n\n    layout row gap=8:\n      input input placeholder=\"할 일을 입력하세요\"\n      button \"추가\" style=primary -> add()\n\n    for item in items:\n      layout row gap=8 center:\n        toggle item.done\n        text item.text strike=\x7bitem.done\x7d color=\x7bitem.done ? \"#999\" : \"#333\"\x7d\n        button \"삭제\" style=danger size=sm -> remove(item.id)\n\n    if items.length == 0:\n      text \"할 일이 없습니다\" color=#999 center"),
   ("chat",
    "page Chat:\n  type Message = \x7bid: int, text: str, sender: str, time: datetime\x7d\n\n  state messages: list[Message] = []\n  state input: str = \"\"\n  state username: str = \"나\"\n\n  fn send():\n    if input.trim() != \"\":\n      messages.push(\x7b\n        id: Date.now(),\n        text: input,\n        sender: username,\n        time: now()\n      \x7d)\n      input = \"\"\n\n  fn onKeyPress(key):\n    if key == \"Enter\": send()\n\n  layout col height=100vh:\n    layout row center padding=16 bg=#075e54:\n      text \"채팅방\" size=lg bold color=white\n\n    layout col gap=8 padding=16 scroll=y grow=1:\n      for msg in messages:\n        layout row:\n          layout col padding=12 radius=12 maxWidth=\"70%\" bg=\x7bmsg.sender == username ? \"#dcf8c6\" : \"white\"\x7d shadow=sm:\n            text msg.text\n            text msg.time.format(\"HH:mm\") size=xs color=#999 end\n\n    layout row gap=8 padding=16 bg=#f0f0f0:\n      input input placeholder=\"메시지 입력...\"\n      button \"전송\" style=primary -> send()"),
   ("dashboard",
    "page Dashboard:\n  type Metric = \x7blabel: str, value: float, change: float\x7d\n\n  state metrics: list[Metric] = []\n  state period: str = \"week\"\n  state loading: bool = true\n\n  api getMetrics = GET \"/api/metrics\"\n\n  on mount:\n    metrics = await getMetrics(period: period)\n    loading = false\n\n  watch period:\n    loading = true\n    metrics = await getMetrics(period: period)\n    loading = false\n\n  layout col gap=24 padding=32:\n    layout row between center:\n      text \"대시보드\" size=3xl bold\n      select period options=[\"day\", \"week\", \"month\", \"year\"]\n\n    if loading:\n      text \"로딩 중...\" center\n    else:\n      layout grid cols=3 gap=16:\n        for metric in metrics:\n          component MetricCard(metric)\n\ncomponent MetricCard:\n  prop metric: Metric\n\n  derived isPositive = metric.change >= 0\n  derived arrow = isPositive ? \"↑\" : \"↓\"\n  derived changeColor = isPositive ? \"green\" : \"red\"\n\n  style card:\n    padding: 24\n    radius: 12\n    shadow: md\n    bg: white\n\n  layout col gap=8 .card:\n    text metric.label size=sm color=#666\n    text \"\x7bmetric.value\x7d\" size=2xl bold\n    text \"\x7barrow\x7d \x7bmetric.change\x7d%\" size=sm color=\x7bchangeColor\x7d"),
   ("ecommerce",
    "page Shop:\n  type Product = \x7bid: int, name: str, price: float, image: str\x7d\n  type CartItem = \x7bproduct: Product, qty: int\x7d\n\n  state products: list[Product] = []\n  state cart: list[CartItem] = []\n  state search: str = \"\"\n  state loading: bool = true\n\n  derived filteredProducts = products.filter(p => p.name.includes(search))\n  derived cartTotal = cart.reduce((sum, item) => sum + item.product.price * item.qty, 0)\n  derived cartCount = cart.reduce((sum, item) => sum + item.qty, 0)\n\n  check cart.length <= 100 \"장바구니는 100개 이하\"\n  check cartTotal >= 0 \"총액은 음수 불가\"\n\n  api getProducts = GET \"/api/products\"\n\n  on mount:\n    products = await getProducts()\n    loading = false\n\n  fn addToCart(product: Product):\n    existing = cart.find(item => item.product.id == product.id)\n    if existing:\n      existing.qty += 1\n    else:\n      cart.push(\x7bproduct: product, qty: 1\x7d)\n\n  fn removeFromCart(productId: int):\n    cart = cart.filter(item => item.product.id != productId)\n\n  layout col gap=24 padding=32:\n    layout row between center:\n      text \"쇼핑몰\" size=3xl bold\n      layout row gap=8 center:\n        text \"장바구니 (\x7bcartCount\x7d)\" size=lg\n        text \"₩\x7bcartTotal\x7d\" size=lg bold color=#e74c3c\n\n    input search placeholder=\"상품 검색...\"\n\n    if loading:\n      text \"로딩 중...\" center\n    else:\n      layout grid cols=3 gap=16:\n        for product in filteredProducts:\n          layout col gap=8 padding=16 radius=12 shadow=md bg=white:\n            image product.image width=\"100%\" height=200\n            text product.name size=lg bold\n            text \"₩\x7bproduct.price\x7d\" size=md color=#e74c3c\n            button \"장바구니 담기\" style=primary -> addToCart(product)"),
   ("model_crud",
    "model Product:\n  name: str\n  price: float\n  category: str\n  createdAt: datetime = now()\n\n  validate:\n    name.length >= 2 \"이름은 2자 이상\"\n    price > 0 \"가격은 양수\"\n\n  permission:\n    read: all\n    write: auth\n    delete: admin\n\n  search: name, category\n  sort: price, createdAt\n  filter: category\n\npage ProductList:\n  data products = fetch(\"/api/products\"):\n    loading: \"로딩 중...\"\n    error: \"상품을 불러올 수 없습니다\"\n    empty: \"등록된 상품이 없습니다\"\n\n  layout col gap=16 padding=24:\n    text \"상품 관리\" size=2xl bold\n\n    table products:\n      columns:\n        select\n        column \"상품명\" name sortable searchable\n        column \"가격\" price sortable\n        column \"카테고리\" category filterable\n        actions: [edit, delete]\n      features:\n        pagination: 20"),
   ("auth_dashboard",
    "auth provider=\"supabase\":\n  login: email, password\n  signup: email, password, name\n  logout\n  guard: auth -> redirect(\"/login\")\n  guard: admin -> redirect(\"/\")\n\nroute \"/dashboard\":\n  page Dashboard\n  guard: auth\n\npage Dashboard:\n  state revenue: int = 0\n  state sales: list = []\n\n  nav:\n    link \"대시보드\" href=\"/\"\n    link \"상품\" href=\"/products\"\n    link \"설정\" href=\"/settings\"\n\n  chart bar salesChart:\n    data: sales\n    x: month\n    y: revenue\n    title: \"월별 매출\"\n\n  layout row:\n    stat \"총 매출\" value=revenue change=\"+12%\"\n    stat \"주문 수\" value=42"),
   ("realtime_chat",
    "page ChatRoom:\n  state messages: list = []\n  state input: str = \"\"\n\n  realtime ws = subscribe(\"wss://chat.example.com\"):\n    on message:\n      messages.push(message)\n    on error:\n      console.log(\"연결 끊김\")\n\n  layout col:\n    text \"실시간 채팅\" size=2xl bold\n\n    layout col gap=8 scroll=y:\n      for msg in messages:\n        text msg.text\n\n    layout row gap=8:\n      input input placeholder=\"메시지 입력...\"\n      button \"전송\" style=primary -> ws.send(input)"),
   ("upload_modal",
    "page Profile:\n  upload avatar:\n    accept: \"image/*\"\n    maxSize: 5\n    preview: true\n\n  modal editDialog title=\"프로필 편집\" trigger=\"편집\":\n    text \"프로필 정보를 수정하세요\"\n    button \"저장\" style=primary -> save()\n\n  layout col gap=16 padding=24:\n    text \"프로필\" size=2xl bold\n    toast \"저장 완료!\" type=success duration=3000"),
   ("landing_page",
    "page Landing:\n  seo:\n    title: \"0x - AI 퍼스트 언어\"\n    description: \"AI로 더 빠르게 웹앱 개발\"\n\n  nav:\n    link \"홈\" href=\"/\"\n    link \"기능\" href=\"#features\"\n    link \"가격\" href=\"#pricing\"\n\n  hero:\n    text \"0x\" size=3xl bold\n    text \"AI로 더 빠르게 개발하세요\" size=xl\n    button \"시작하기\" style=primary -> navigate(\"/start\")\n\n  layout col:\n    text \"Welcome\" size=2xl"),
   ("admin_crud",
    "roles:\n  admin:\n    can: read, write, delete\n  editor:\n    can: read, write\n\npage Admin:\n  crud Product:\n    text \"상품 관리\"\n\n  layout col gap=16 padding=24:\n    stats 3:\n      stat \"매출\" value=revenue\n      stat \"주문\" value=orders\n    breadcrumb auto\n    text \"관리자 패널\" size=2xl bold"),
   ("interactive",
    "page Interactive:\n  state post: str = \"\"\n  state images: list = []\n\n  layout col gap=16 padding=24:\n    animate enter:\n      text \"애니메이션 효과\" size=2xl bold\n\n    mobile show:\n      text \"모바일 전용 컨텐츠\"\n\n    drawer sidebar:\n      text \"사이드바 메뉴\"\n\n    search global products:\n      text \"검색 결과\"\n\n    social like post:\n      text \"좋아요\"\n\n    pay checkout:\n      text \"결제\"\n\n    media gallery images cols=3\n\n    confirm \"정말 삭제하시겠습니까?\" danger confirm=\"삭제\" cancel=\"취소\""),
   ("form_validation",
    "page Contact:\n  form contactForm:\n    field name: str\n      label: \"이름\"\n      required: \"이름을 입력하세요\"\n      min: 2 \"2자 이상 입력\"\n\n    field email: str\n      label: \"이메일\"\n      format: email \"올바른 이메일 형식이 아닙니다\"\n\n    field phone: str\n      label: \"전화번호\"\n      pattern: \"^01[0-9]\x7b8,9\x7d$\" \"올바른 전화번호 형식\"\n\n    field message: str\n      label: \"메시지\"\n      max: 500 \"500자 이하\"\n\n    submit \"보내기\" -> api.sendContact(contactForm.data):\n      success: toast(\"전송 완료!\")\n      error: toast(\"전송 실패\")\n\n  layout col gap=16 padding=24 center:\n    text \"문의하기\" size=2xl bold\n    text \"아래 양식을 작성해주세요\" color=#666")]

/-- The example button labels of src/examples.ts, as an ordered
association list from example key to display label. -/
def EXAMPLE_NAMES : List (String × String) :=
  [("counter", "카운터"),
   ("todo", "할 일 목록"),
   ("chat", "채팅"),
   ("dashboard", "대시보드"),
   ("ecommerce", "쇼핑몰"),
   ("model_crud", "Model+CRUD"),
   ("form_validation", "Form 검증"),
   ("auth_dashboard", "인증+대시보드"),
   ("realtime_chat", "실시간 채팅"),
   ("upload_modal", "업로드+모달"),
   ("landing_page", "랜딩 페이지"),
   ("admin_crud", "관리자+CRUD"),
   ("interactive", "인터랙티브")]

/-- Model of the source set by handleExampleChange in App.tsx: the value
of the EXAMPLES record at the clicked key (none models undefined). -/
def exampleSource (name : String) : Option String :=
  recordGet EXAMPLES name

/-! ## Definitions used by the statements of the verified properties -/

/-- Quoted string literals appearing in an expression, in order. -/
def exprLits : Expr → List String
  | .strLit s => [s]
  | .member e _ => exprLits e
  | .bin _ l r => exprLits l ++ exprLits r
  | _ => []

/-- Quoted string literals appearing in an initializer. -/
def initLits : InitVal → List String
  | .single e => exprLits e
  | .listLit es => flatList exprLits es

/-- All quoted string literals of a page: literals in state initializers,
derived expressions and check expressions, plus the check messages (which
are quoted string literals of the source as well). -/
def stringLits (p : Program) : List String :=
  flatList (fun s => initLits s.init) p.states ++
    flatList (fun d => exprLits d.expr) p.deriveds ++
    flatList (fun c => exprLits c.cond ++ [c.message]) p.checks

/-- One character list occurs contiguously inside another. -/
def SubL (a b : List Char) : Prop :=
  ∃ u v, u ++ a ++ v = b

/-- One string occurs verbatim as a substring of another. -/
def SubstrOf (a b : String) : Prop :=
  SubL a.data b.data

/-- A list of names forming a cycle of the derived-value dependency graph
of a page: the list is non-empty, every name on it is the name of a
derived value of the page, and every derived declaration carrying a name
on the list reads some name on the list. -/
def IsCycle (p : Program) (c : List String) : Prop :=
  c ≠ [] ∧
    (∀ x ∈ c, ∃ d ∈ p.deriveds, d.name = x) ∧
    (∀ x ∈ c, ∀ d ∈ p.deriveds, d.name = x → ∃ y ∈ c, y ∈ exprIdents d.expr)

/-- Specification-side count of the lines of a string (split on newline)
that contain at least one non-whitespace character. -/
def specLineCount (s : String) : Nat :=
  ((splitNlGo s.data).filter (fun l => l.any (fun c => !jsWs c))).length

/-- The two mutually recursive derived declarations of the specification's
acyclicity scenario: derived a = b + 1 and derived b = a + 1. -/
def derivedA : DerivedDecl :=
  ⟨"a", Expr.bin BinOp.add (Expr.ident "b") (Expr.intLit 1)⟩

/-- Companion declaration of derivedA. -/
def derivedB : DerivedDecl :=
  ⟨"b", Expr.bin BinOp.add (Expr.ident "a") (Expr.intLit 1)⟩

/-- A page holding exactly the two mutually recursive derived values. -/
def cycleProg : Program :=
  ⟨"Cycle", [], [derivedA, derivedB], []⟩

/-- A page modelling the essence of the bundled todo example: a list-typed
state variable items, a string state variable input, and the check
statement on items.length with its Korean message. -/
def todoProg : Program :=
  ⟨"Todo",
    [⟨"items", Ty.list Ty.str, InitVal.listLit []⟩,
     ⟨"input", Ty.str, InitVal.single (Expr.strLit "")⟩],
    [],
    [⟨Expr.bin BinOp.le (Expr.member (Expr.ident "items") "length") (Expr.intLit 500),
      "할일은 500개 이하"⟩]⟩

/-- A page whose check references the undeclared identifier foo. -/
def undeclProg : Program :=
  ⟨"Bad",
    [⟨"items", Ty.list Ty.str, InitVal.listLit []⟩],
    [],
    [⟨Expr.bin BinOp.le (Expr.member (Expr.ident "foo") "length") (Expr.intLit 500),
      "msg"⟩]⟩

/-- A page modelling the counter example's state and derived declarations,
with a Korean string literal in a check message. -/
def counterProg : Program :=
  ⟨"Counter",
    [⟨"count", Ty.int, InitVal.single (Expr.intLit 0)⟩],
    [⟨"doubled", Expr.bin BinOp.mul (Expr.ident "count") (Expr.intLit 2)⟩],
    [⟨Expr.bin BinOp.ge (Expr.ident "doubled") (Expr.intLit 0),
      "카운터"⟩]⟩

/-- The empty page. -/
def emptyProg : Program :=
  ⟨"Empty", [], [], []⟩

/-- A compile function that always fails, standing in for a compiler run
that throws. -/
def cfFail : String → CompileOptions → Except CompileError CompileOutput :=
  fun _ _ => .error ⟨.LexError, "unterminated string literal"⟩

/-- A compile function that always succeeds with a fixed output. -/
def cfOk : String → CompileOptions → Except CompileError CompileOutput :=
  fun _ _ => .ok ⟨"let x = 1;\n", 1, 4⟩

/-! ## Theorems -/

theorem mem_keys_of_recordGet (r : List (String × String)) (k v : String)
    (h : recordGet r k = some v) : k ∈ r.map (fun p => p.fst) := by
  unfold recordGet at h
  cases hf : r.find? (fun p => p.fst = k) with
  | none => rw [hf] at h; simp at h
  | some p =>
    have hp : p ∈ r := List.mem_of_find?_eq_some hf
    have hpk : p.fst = k := by
      have := List.find?_some hf
      simpa using this
    rw [← hpk]
    exact List.mem_map_of_mem _ hp

theorem runTarget_mem_aux (evs : List AppEvent) :
    ∀ t, t ∈ targetKeys → (∀ e ∈ evs, validEvent e) →
      evs.foldl stepTarget t ∈ targetKeys := by
  induction evs with
  | nil => intro t ht _; exact ht
  | cons e evs ih =>
    intro t ht hv
    have hstep : stepTarget t e ∈ targetKeys := by
      cases e with
      | tabClick k => exact hv (.tabClick k) (List.mem_cons_self _ _)
      | urlTarget s =>
        cases s with
        | none => exact ht
        | some str =>
          show (if jsTruthyStr (recordGet TARGET_LABELS str) then str else t) ∈ targetKeys
          cases hg : recordGet TARGET_LABELS str with
          | none => simp [hg, jsTruthyStr]; exact ht
          | some v =>
            by_cases hvideo : v = ""
            · simp [hg, jsTruthyStr, hvideo]; exact ht
            · simp only [hg, jsTruthyStr, hvideo]
              rw [if_pos (by simp [hvideo])]
              exact mem_keys_of_recordGet _ _ _ hg
    exact ih (stepTarget t e) hstep (fun x hx => hv x (List.mem_cons_of_mem _ hx))

/-- Claim C1: for every displayed statistics record whose output token
count is positive, the savings percentage round of one minus srcTokens
over tokens is evaluated without any division by zero (the divisor of the
only division is the positive token count). -/
theorem savings_no_division_by_zero (st : Stats) (h : 0 < st.tokens) :
    (savingsOf st).isSome := by
  unfold savingsOf savingsEval
  have hne : st.tokens ≠ 0 := Nat.pos_iff_ne_zero.mp h
  by_cases hs : 0 < st.srcTokens
  · rw [if_pos hs, if_neg hne]; rfl
  · rw [if_neg hs]; rfl

theorem savings_no_division_by_zero_witness :
    (savingsOf ⟨5, 10, 3, 4⟩).isSome :=
  savings_no_division_by_zero ⟨5, 10, 3, 4⟩ (by decide)

/-- Claim C2: if the compile call of doCompile throws, the displayed
output is the empty string, all four statistics are zero and the error
state holds the thrown message; if it returns normally, the error state is
the empty string. -/
theorem doCompile_no_partial_output
    (cf : String → CompileOptions → Except CompileError CompileOutput)
    (src : String) (tgt : Target) :
    (∀ e, cf src (mkOptions tgt) = .error e → e.message ≠ "" →
        doCompile cf src tgt = ⟨"", e.message, ⟨0, 0, 0, 0⟩⟩) ∧
      (∀ r, cf src (mkOptions tgt) = .ok r → (doCompile cf src tgt).error = "") := by
  constructor
  · intro e he hm
    unfold doCompile
    rw [he]
    simp [jsOrString, hm]
  · intro r hr
    unfold doCompile
    rw [hr]

theorem doCompile_no_partial_output_witness :
    doCompile cfFail ("page X:") Target.react =
      ⟨"", "unterminated string literal", ⟨0, 0, 0, 0⟩⟩ ∧
      (doCompile cfOk ("page X:") Target.vue).error = "" :=
  ⟨(doCompile_no_partial_output cfFail ("page X:") Target.react).1
      ⟨.LexError, "unterminated string literal"⟩ rfl (by decide),
    (doCompile_no_partial_output cfOk ("page X:") Target.vue).2
      ⟨"let x = 1;\n", 1, 4⟩ rfl⟩

/-- Claim C3: in every reachable state of the playground the target is
one of the three identifiers react, vue, svelte — it starts as react, tab
clicks range over the keys of TARGET_LABELS and a URL parameter is
accepted only when it indexes TARGET_LABELS — and every compile call made
by doCompile passes validate = true together with such a target. -/
theorem target_always_valid :
    (∀ evs : List AppEvent, (∀ e ∈ evs, validEvent e) →
        runTarget evs ∈ targetKeys) ∧
      (∀ t : Target, (mkOptions t).validate = true ∧ targetKey t ∈ targetKeys) := by
  constructor
  · intro evs hv
    exact runTarget_mem_aux evs ("react") (by decide) hv
  · intro t
    refine ⟨rfl, ?_⟩
    cases t <;> decide

theorem target_always_valid_witness :
    runTarget [AppEvent.tabClick ("vue"), AppEvent.urlTarget (some ("bogus"))] ∈ targetKeys :=
  target_always_valid.1 [AppEvent.tabClick ("vue"), AppEvent.urlTarget (some ("bogus"))]
    (by simp [validEvent, targetKeys, TARGET_LABELS])

/-- Claim C9: every key of EXAMPLE_NAMES is a key of EXAMPLES, so every
example button's click hands handleExampleChange a name at which the
EXAMPLES record is defined and the editor source is never set to an
undefined value. -/
theorem example_names_sub_examples :
    ((EXAMPLE_NAMES.map (fun p => p.fst)).all
        (fun k => (exampleSource k).isSome)) = true := by
  decide

theorem handleTab_eq (val : List Char) (s e : Nat) :
    handleTab ("Tab") val s e = val.take s ++ ['\x20', '\x20'] ++ val.drop e := by
  unfold handleTab
  rw [if_pos rfl]

/-- Claim C10: pressing Tab replaces the selected range by exactly two
spaces — the new value is the prefix before the selection, two spaces, and
the suffix after it; its length is the old length minus the selection
width plus two; and the text outside the selection is unchanged. -/
theorem handleTab_replaces_selection (val : List Char) (s e : Nat)
    (hse : s ≤ e) (hev : e ≤ val.length) :
    handleTab ("Tab") val s e = val.take s ++ ['\x20', '\x20'] ++ val.drop e ∧
      (handleTab ("Tab") val s e).length = val.length - (e - s) + 2 ∧
      (handleTab ("Tab") val s e).take s = val.take s ∧
      (handleTab ("Tab") val s e).drop (s + 2) = val.drop e := by
  have hd := handleTab_eq val s e
  have hts : (val.take s).length = s := by
    rw [List.length_take]
    omega
  refine ⟨hd, ?_, ?_, ?_⟩
  · rw [hd]
    simp only [List.length_append, List.length_take, List.length_drop, List.length_cons,
      List.length_nil]
    omega
  · rw [hd, List.append_assoc]
    exact List.take_left' hts
  · rw [hd]
    have hlen : (val.take s ++ ['\x20', '\x20']).length = s + 2 := by
      simp [hts]
    exact List.drop_left' hlen

theorem handleTab_replaces_selection_witness :
    (handleTab ("Tab") (("hello").data) 1 3).length =
      ("hello").data.length - (3 - 1) + 2 :=
  (handleTab_replaces_selection (("hello").data) 1 3 (by decide) (by decide)).2.1

theorem splitWsGo_filter_length (l : List Char) :
    ∀ cur prevWs, (prevWs = true → cur = []) →
      ((splitWsGo l cur prevWs).filter (fun p => p ≠ [])).length =
        (if cur = [] then 0 else 1) + maxRunCount l (!cur.isEmpty) := by
  induction l with
  | nil =>
    intro cur prevWs _
    unfold splitWsGo maxRunCount
    by_cases hc : cur = []
    · simp [hc]
    · simp [hc, List.filter]
  | cons c cs ih =>
    intro cur prevWs hinv
    unfold splitWsGo maxRunCount
    by_cases hw : jsWs c
    · rw [if_pos hw, if_pos hw]
      by_cases hp : prevWs = true
      · rw [if_pos hp]
        have hc : cur = [] := hinv hp
        subst hc
        rw [ih [] true (fun _ => rfl)]
        simp
      · rw [if_neg hp]
        have step : ((cur.reverse :: splitWsGo cs [] true).filter (fun p => p ≠ [])).length =
            (if cur = [] then 0 else 1) +
              ((splitWsGo cs [] true).filter (fun p => p ≠ [])).length := by
          by_cases hc : cur = []
          · simp [hc, List.filter]
          · have hrc : cur.reverse ≠ [] := by
              simpa [List.reverse_eq_nil_iff] using hc
            simp [List.filter, hrc, hc]
            omega
        rw [step, ih [] true (fun _ => rfl)]
        by_cases hc : cur = []
        · simp [hc]
        · have hce : cur.isEmpty = false := by
            cases cur
            · exact absurd rfl hc
            · rfl
          simp [hc, hce]
    · rw [if_neg hw, if_neg hw, ih (c :: cur) false (fun h => nomatch h)]
      by_cases hc : cur = []
      · simp [hc]
      · have hce : cur.isEmpty = false := by
          cases cur
          · exact absurd rfl hc
          · rfl
        simp [hc, hce]

theorem jsTokenCount_eq_maxRunCount (s : String) :
    jsTokenCount s = maxRunCount s.data false := by
  unfold jsTokenCount jsSplitWs
  rw [splitWsGo_filter_length s.data [] false (fun _ => rfl)]
  simp

theorem jsTrim_ne_nil_iff (l : List Char) :
    jsTrim l ≠ [] ↔ l.any (fun c => !jsWs c) = true := by
  unfold jsTrim
  rw [Ne, List.reverse_eq_nil_iff, List.dropWhile_eq_nil_iff]
  constructor
  · intro h
    rw [List.any_eq_true]
    by_contra hall
    push_neg at hall
    apply h
    intro x hx
    have hxl : x ∈ (l.dropWhile jsWs).reverse → x ∈ l := by
      intro hm
      exact (List.dropWhile_sublist jsWs).mem (List.mem_reverse.mp hm)
    have := hall x (hxl hx)
    simpa using this
  · intro h hall
    rw [List.any_eq_true] at h
    obtain ⟨x, hxl, hxw⟩ := h
    have hxin : x ∈ l.takeWhile jsWs ∨ x ∈ l.dropWhile jsWs := by
      rw [← List.mem_append, List.takeWhile_append_dropWhile jsWs l]
      exact hxl
    cases hxin with
    | inl htk =>
      have := List.mem_takeWhile_imp htk
      simp [this] at hxw
    | inr hdr =>
      have := hall x (List.mem_reverse.mpr hdr)
      simp [this] at hxw

theorem jsLineCount_eq_specLineCount (s : String) :
    jsLineCount s = specLineCount s := by
  unfold jsLineCount specLineCount
  congr 1
  apply List.filter_congr
  intro l _
  have h := jsTrim_ne_nil_iff l
  by_cases hc : jsTrim l = []
  · have : l.any (fun c => !jsWs c) = false := by
      by_contra hb
      have : l.any (fun c => !jsWs c) = true := by
        cases hx : l.any (fun c => !jsWs c)
        · exact absurd hx hb
        · rfl
      exact (h.mpr this) hc
    simp [hc, this]
  · have := h.mp hc
    simp [hc, this]

/-- Claim C8: on a successful compile, doCompile's source-side statistics
are the number of newline-split lines of the source containing a
non-whitespace character, and the number of maximal non-empty
whitespace-delimited substrings of the source; these are the values the
savings percentage divides. -/
theorem doCompile_source_stats
    (cf : String → CompileOptions → Except CompileError CompileOutput)
    (src : String) (tgt : Target) (r : CompileOutput)
    (h : cf src (mkOptions tgt) = .ok r) :
    (doCompile cf src tgt).stats.srcLines = specLineCount src ∧
      (doCompile cf src tgt).stats.srcTokens = maxRunCount src.data false := by
  unfold doCompile
  rw [h]
  exact ⟨jsLineCount_eq_specLineCount src, jsTokenCount_eq_maxRunCount src⟩

theorem doCompile_source_stats_witness :
    (doCompile cfOk ("state count: int = 0") Target.react).stats.srcLines =
      specLineCount ("state count: int = 0") ∧
      (doCompile cfOk ("state count: int = 0") Target.react).stats.srcTokens =
        maxRunCount ("state count: int = 0").data false :=
  doCompile_source_stats cfOk ("state count: int = 0") Target.react
    ⟨"let x = 1;\n", 1, 4⟩ rfl

theorem subL_refl (a : List Char) : SubL a a :=
  ⟨[], [], by simp⟩

theorem subL_appR {a b : List Char} (c : List Char) (h : SubL a b) : SubL a (b ++ c) := by
  obtain ⟨u, v, hu⟩ := h
  exact ⟨u, v ++ c, by rw [← hu]; simp⟩

theorem subL_appL {a b : List Char} (c : List Char) (h : SubL a b) : SubL a (c ++ b) := by
  obtain ⟨u, v, hu⟩ := h
  exact ⟨c ++ u, v, by rw [← hu]; simp⟩

theorem subL_trans {a b c : List Char} (h1 : SubL a b) (h2 : SubL b c) : SubL a c := by
  obtain ⟨u, v, hu⟩ := h1
  obtain ⟨u', v', hu'⟩ := h2
  refine ⟨u' ++ u, v ++ v', ?_⟩
  rw [← hu', ← hu]
  simp

theorem strData_append (a b : String) : (a ++ b).data = a.data ++ b.data :=
  rfl

theorem substr_refl (a : String) : SubstrOf a a :=
  subL_refl a.data

theorem substr_appR {a b : String} (c : String) (h : SubstrOf a b) : SubstrOf a (b ++ c) := by
  unfold SubstrOf
  rw [strData_append]
  exact subL_appR c.data h

theorem substr_appL {a b : String} (c : String) (h : SubstrOf a b) : SubstrOf a (c ++ b) := by
  unfold SubstrOf
  rw [strData_append]
  exact subL_appL c.data h

theorem substr_trans {a b c : String} (h1 : SubstrOf a b) (h2 : SubstrOf b c) : SubstrOf a c :=
  subL_trans h1 h2

theorem mem_flatList {f : α → List β} {x : β} :
    ∀ {l : List α}, x ∈ flatList f l → ∃ a ∈ l, x ∈ f a := by
  intro l
  induction l with
  | nil => intro h; cases h
  | cons a l ih =>
    intro h
    unfold flatList at h
    rcases List.mem_append.mp h with h1 | h2
    · exact ⟨a, List.mem_cons_self _ _, h1⟩
    · obtain ⟨a', ha', hx⟩ := ih h2
      exact ⟨a', List.mem_cons_of_mem _ ha', hx⟩

theorem substr_joinSep {x : String} (sep : String) :
    ∀ {xs : List String}, x ∈ xs → SubstrOf x (joinSep sep xs) := by
  intro xs
  induction xs with
  | nil => intro h; cases h
  | cons y ys ih =>
    intro h
    rcases List.mem_cons.mp h with h1 | h2
    · subst h1
      cases ys with
      | nil => exact substr_refl x
      | cons z zs =>
        simp only [joinSep]
        exact substr_appR _ (substr_appR _ (substr_refl x))
    · have hys : ys ≠ [] := List.ne_nil_of_mem h2
      cases ys with
      | nil => exact absurd rfl hys
      | cons z zs =>
        simp only [joinSep]
        exact substr_appL (y ++ sep) (ih h2)

theorem substr_concatStrs {x : String} {f : α → String} {a : α}
    (hsub : SubstrOf x (f a)) :
    ∀ {l : List α}, a ∈ l → SubstrOf x (concatStrs (l.map f)) := by
  intro l
  induction l with
  | nil => intro h; cases h
  | cons b bs ih =>
    intro h
    rcases List.mem_cons.mp h with h1 | h2
    · subst h1
      show SubstrOf x (f a ++ concatStrs (bs.map f))
      exact substr_appR _ hsub
    · show SubstrOf x (f b ++ concatStrs (bs.map f))
      exact substr_appL _ (ih h2)

theorem lit_substr_emitExpr {s : String} :
    ∀ {e : Expr}, s ∈ exprLits e → SubstrOf s (emitExpr e) := by
  intro e
  induction e with
  | intLit n => intro h; cases h
  | strLit s' =>
    intro h
    have hs : s = s' := by
      have : s ∈ [s'] := h
      simpa using this
    subst hs
    show SubstrOf s (("\"" : String) ++ s ++ "\"")
    exact subL_appR _ (subL_appL _ (subL_refl s.data))
  | boolLit b => intro h; cases h
  | ident x => intro h; cases h
  | member e f ih =>
    intro h
    show SubstrOf s (emitExpr e ++ ("." : String) ++ f)
    exact subL_appR _ (subL_appR _ (ih h))
  | bin op l r ihl ihr =>
    intro h
    rcases List.mem_append.mp h with h1 | h2
    · show SubstrOf s (("(" : String) ++ emitExpr l ++ emitOp op ++ emitExpr r ++ ")")
      exact subL_appR _ (subL_appR _ (subL_appR _ (subL_appL _ (ihl h1))))
    · show SubstrOf s (("(" : String) ++ emitExpr l ++ emitOp op ++ emitExpr r ++ ")")
      exact subL_appR _ (subL_appL _ (ihr h2))

theorem lit_substr_emitInit {s : String} {i : InitVal}
    (h : s ∈ initLits i) : SubstrOf s (emitInit i) := by
  cases i with
  | single e => exact lit_substr_emitExpr h
  | listLit es =>
    obtain ⟨e, he, hs⟩ := mem_flatList h
    have h1 : SubstrOf s (emitExpr e) := lit_substr_emitExpr hs
    have h2 : SubstrOf (emitExpr e) (joinSep (", ") (es.map emitExpr)) :=
      substr_joinSep (", ") (List.mem_map_of_mem emitExpr he)
    show SubstrOf s (("[" : String) ++ joinSep (", ") (es.map emitExpr) ++ "]")
    exact subL_appR _ (subL_appL _ (substr_trans h1 h2))

theorem lit_substr_emitState {s : String} (t : Target) {sd : StateDecl}
    (h : s ∈ initLits sd.init) : SubstrOf s (emitState t sd) := by
  have hi := lit_substr_emitInit h
  cases t with
  | react =>
    show SubstrOf s (("  const [" : String) ++ sd.name ++ ", set_" ++ sd.name ++
      "] = useState(" ++ emitInit sd.init ++ ");\n")
    exact subL_appR _ (subL_appL _ hi)
  | vue =>
    show SubstrOf s (("const " : String) ++ sd.name ++ " = ref(" ++ emitInit sd.init ++ ");\n")
    exact subL_appR _ (subL_appL _ hi)
  | svelte =>
    show SubstrOf s (("let " : String) ++ sd.name ++ " = " ++ emitInit sd.init ++ ";\n")
    exact subL_appR _ (subL_appL _ hi)

theorem lit_substr_emitDerived {s : String} (t : Target) {d : DerivedDecl}
    (h : s ∈ exprLits d.expr) : SubstrOf s (emitDerived t d) := by
  have hi := lit_substr_emitExpr h
  cases t with
  | react =>
    show SubstrOf s (("  const " : String) ++ d.name ++ " = useMemo(() => " ++
      emitExpr d.expr ++ ", [" ++ joinSep (", ") (exprIdents d.expr) ++ "]);\n")
    exact subL_appR _ (subL_appR _ (subL_appR _ (subL_appL _ hi)))
  | vue =>
    show SubstrOf s (("const " : String) ++ d.name ++ " = computed(() => " ++
      emitExpr d.expr ++ ");\n")
    exact subL_appR _ (subL_appL _ hi)
  | svelte =>
    show SubstrOf s (("$: " : String) ++ d.name ++ " = " ++ emitExpr d.expr ++ ";\n")
    exact subL_appR _ (subL_appL _ hi)

theorem lit_substr_emitCheck {s : String} (t : Target) {c : CheckDecl}
    (h : s ∈ exprLits c.cond ++ [c.message]) : SubstrOf s (emitCheck t c) := by
  have key : ∀ pre : String,
      SubstrOf s (pre ++ emitExpr c.cond ++ ", \"" ++ c.message ++ "\");\n") := by
    intro pre
    rcases List.mem_append.mp h with h1 | h2
    · exact subL_appR _ (subL_appR _ (subL_appR _ (subL_appL _ (lit_substr_emitExpr h1))))
    · have hs : s = c.message := by simpa using h2
      rw [hs]
      exact subL_appR _ (subL_appL _ (subL_refl c.message.data))
  cases t with
  | react => exact key ("  runtimeCheck(")
  | vue => exact key ("runtimeCheck(")
  | svelte => exact key ("runtimeCheck(")

theorem topoGo_ok_mem :
    ∀ (fuel : Nat) (pending l : List DerivedDecl),
      topoGo fuel pending = .ok l → ∀ d ∈ pending, d ∈ l := by
  intro fuel
  induction fuel with
  | zero =>
    intro pending l h d hd
    cases pending with
    | nil => cases hd
    | cons p ps =>
      simp only [topoGo] at h
      exact Except.noConfusion h
  | succ n ih =>
    intro pending l h d hd
    cases pending with
    | nil => cases hd
    | cons p ps =>
      simp only [topoGo] at h
      split at h
      · exact Except.noConfusion h
      · split at h
        case _ rest' heq =>
          have hl : (p :: ps).filter
              (fun d => (exprIdents d.expr).all
                (fun y => decide (y ∉ (p :: ps).map (fun d => d.name)))) ++ rest' = l :=
            Except.ok.inj h
          rw [← hl]
          by_cases hrdy : (exprIdents d.expr).all
              (fun y => decide (y ∉ (p :: ps).map (fun d => d.name))) = true
          · exact List.mem_append_left _ (List.mem_filter.mpr ⟨hd, hrdy⟩)
          · have hmem : d ∈ (p :: ps).filter
                (fun d => !(exprIdents d.expr).all
                  (fun y => decide (y ∉ (p :: ps).map (fun d => d.name)))) := by
              apply List.mem_filter.mpr
              refine ⟨hd, ?_⟩
              cases hx : (exprIdents d.expr).all
                  (fun y => decide (y ∉ (p :: ps).map (fun d => d.name)))
              · rfl
              · exact absurd hx hrdy
            exact List.mem_append_right _ (ih _ rest' heq d hmem)
        case _ e heq =>
          exact Except.noConfusion h

theorem analyze_ok_topo {p : Program} {v : Bool} {ord : List DerivedDecl}
    (h : analyze p v = .ok ord) : topo p = .ok ord := by
  unfold analyze at h
  split at h
  · exact Except.noConfusion h
  · split at h
    · exact Except.noConfusion h
    · split at h
      case _ e heq => exact Except.noConfusion h
      case _ o heq =>
      split at h
      · split at h
        · exact Except.noConfusion h
        · split at h
          · exact Except.noConfusion h
          · rw [heq, Except.ok.inj h]
      · rw [heq, Except.ok.inj h]

/-- Claim C5: on every successful compile, for every target, every quoted
string literal of the source program (state initializers, derived and
check expressions, and check messages, Korean text included) occurs
verbatim as a substring of the generated code. -/
theorem compile_preserves_string_literals (p : Program) (t : Target) (r : CompileOutput)
    (h : compile p ⟨t, true⟩ = .ok r) :
    ∀ s ∈ stringLits p, SubstrOf s r.code := by
  unfold compile at h
  cases ha : analyze p true with
  | error e => rw [ha] at h; exact Except.noConfusion h
  | ok ord =>
    rw [ha] at h
    have hcode : generate p ord t = r.code :=
      congrArg CompileOutput.code (Except.ok.inj h)
    intro s hs
    rw [← hcode]
    unfold generate
    rcases List.mem_append.mp hs with hsd | hck
    · rcases List.mem_append.mp hsd with hst | hdr
      · obtain ⟨sd, hsdm, hsl⟩ := mem_flatList hst
        have h2 : SubstrOf s (concatStrs (p.states.map (emitState t))) :=
          substr_concatStrs (lit_substr_emitState t hsl) hsdm
        exact substr_appR _ (substr_appR _ (substr_appR _ (substr_appL _ h2)))
      · obtain ⟨d, hdm, hsl⟩ := mem_flatList hdr
        have hord : d ∈ ord := by
          have htp : topo p = .ok ord := by
            apply analyze_ok_topo (v := true)
            rw [ha]
          exact topoGo_ok_mem _ _ _ htp d hdm
        have h2 : SubstrOf s (concatStrs (ord.map (emitDerived t))) :=
          substr_concatStrs (lit_substr_emitDerived t hsl) hord
        exact substr_appR _ (substr_appR _ (substr_appL _ h2))
    · obtain ⟨c, hcm, hsl⟩ := mem_flatList hck
      have h2 : SubstrOf s (concatStrs (p.checks.map (emitCheck t))) :=
        substr_concatStrs (lit_substr_emitCheck t hsl) hcm
      exact substr_appR _ (substr_appL _ h2)

theorem compile_preserves_string_literals_witness :
    SubstrOf ("할일은 500개 이하")
      ("<script>\nlet items = [];\nlet input = \"\";\nruntimeCheck((items.length <= 500), \"할일은 500개 이하\");\n</script>\n") :=
  compile_preserves_string_literals todoProg Target.svelte
    ⟨"<script>\nlet items = [];\nlet input = \"\";\nruntimeCheck((items.length <= 500), \"할일은 500개 이하\");\n</script>\n",
      5, 16⟩
    (by rfl) ("할일은 500개 이하")
    (by simp [stringLits, todoProg, flatList, exprLits, initLits])

theorem topoGo_cycle :
    ∀ (fuel : Nat) (pending : List DerivedDecl) (c : List String),
      c ≠ [] →
      (∀ x ∈ c, ∃ d ∈ pending, d.name = x) →
      (∀ x ∈ c, ∀ d ∈ pending, d.name = x → ∃ y ∈ c, y ∈ exprIdents d.expr) →
      ∃ e, topoGo fuel pending = .error e := by
  intro fuel
  induction fuel with
  | zero =>
    intro pending c hne hdecl _
    cases pending with
    | nil =>
      cases c with
      | nil => exact absurd rfl hne
      | cons x xs =>
        obtain ⟨d, hd, _⟩ := hdecl x (List.mem_cons_self _ _)
        cases hd
    | cons p ps => exact ⟨cycleError (p :: ps), by simp only [topoGo]⟩
  | succ n ih =>
    intro pending c hne hdecl hreads
    cases pending with
    | nil =>
      cases c with
      | nil => exact absurd rfl hne
      | cons x xs =>
        obtain ⟨d, hd, _⟩ := hdecl x (List.mem_cons_self _ _)
        cases hd
    | cons p ps =>
      simp only [topoGo]
      have hnotready : ∀ x ∈ c, ∀ d ∈ p :: ps, d.name = x →
          ((exprIdents d.expr).all
            (fun y => decide (y ∉ (p :: ps).map (fun d => d.name)))) = false := by
        intro x hx d hd hname
        obtain ⟨y, hy, hyr⟩ := hreads x hx d hd hname
        obtain ⟨dy, hdy, hdyname⟩ := hdecl y hy
        have hymem : y ∈ (p :: ps).map (fun d => d.name) :=
          List.mem_map.mpr ⟨dy, hdy, hdyname⟩
        cases hall : (exprIdents d.expr).all
            (fun y => decide (y ∉ (p :: ps).map (fun d => d.name)))
        · rfl
        · have := List.all_eq_true.mp hall y hyr
          exact absurd hymem (of_decide_eq_true this)
      by_cases hES : ((p :: ps).filter
          (fun d => (exprIdents d.expr).all
            (fun y => decide (y ∉ (p :: ps).map (fun d => d.name))))).isEmpty
      · rw [if_pos hES]
        exact ⟨cycleError (p :: ps), rfl⟩
      · rw [if_neg hES]
        have hdecl' : ∀ x ∈ c, ∃ d ∈ (p :: ps).filter
            (fun d => !(exprIdents d.expr).all
              (fun y => decide (y ∉ (p :: ps).map (fun d => d.name)))), d.name = x := by
          intro x hx
          obtain ⟨d, hd, hname⟩ := hdecl x hx
          refine ⟨d, List.mem_filter.mpr ⟨hd, ?_⟩, hname⟩
          rw [hnotready x hx d hd hname]
          rfl
        have hreads' : ∀ x ∈ c, ∀ d ∈ (p :: ps).filter
            (fun d => !(exprIdents d.expr).all
              (fun y => decide (y ∉ (p :: ps).map (fun d => d.name)))),
            d.name = x → ∃ y ∈ c, y ∈ exprIdents d.expr := by
          intro x hx d hd hname
          exact hreads x hx d (List.mem_of_mem_filter hd) hname
        obtain ⟨e, he⟩ := ih ((p :: ps).filter
            (fun d => !(exprIdents d.expr).all
              (fun y => decide (y ∉ (p :: ps).map (fun d => d.name))))) c hne hdecl' hreads'
        rw [he]
        exact ⟨e, rfl⟩

theorem cycle_not_ok (p : Program) (c : List String) (opts : CompileOptions)
    (r : CompileOutput) (hcyc : IsCycle p c) : compile p opts ≠ .ok r := by
  intro hok
  unfold compile at hok
  cases ha : analyze p opts.validate with
  | error e => rw [ha] at hok; exact Except.noConfusion hok
  | ok ord =>
    have htp : topo p = .ok ord := analyze_ok_topo ha
    unfold topo at htp
    obtain ⟨e, he⟩ := topoGo_cycle p.deriveds.length p.deriveds c hcyc.1 hcyc.2.1 hcyc.2.2
    rw [he] at htp
    exact Except.noConfusion htp

theorem firstDup_none_nodup : ∀ l : List String, firstDup l = none → l.Nodup := by
  intro l
  induction l with
  | nil => intro _; exact List.nodup_nil
  | cons x xs ih =>
    intro h
    unfold firstDup at h
    split at h
    · exact Option.noConfusion h
    · next hx => exact List.nodup_cons.mpr ⟨hx, ih h⟩

/-- Claim C6: the page holding derived a = b + 1 and derived b = a + 1
fails with a SemanticError naming both a and b; more generally, no page
whose derived-value dependency graph contains a cycle compiles
successfully, and any page containing the two mutually recursive
declarations fails for every target and validate flag. -/
theorem derived_cycle_rejected :
    (∀ opts : CompileOptions,
        compile cycleProg opts =
          .error ⟨.SemanticError, "dependency cycle among derived values: a, b"⟩ ∧
          SubstrOf ("a") ("dependency cycle among derived values: a, b") ∧
          SubstrOf ("b") ("dependency cycle among derived values: a, b")) ∧
      (∀ (p : Program) (c : List String) (opts : CompileOptions) (r : CompileOutput),
        IsCycle p c → compile p opts ≠ .ok r) ∧
      (∀ (p : Program) (opts : CompileOptions) (r : CompileOutput),
        derivedA ∈ p.deriveds → derivedB ∈ p.deriveds → compile p opts ≠ .ok r) := by
  refine ⟨?_, ?_, ?_⟩
  · intro opts
    refine ⟨rfl, ?_, ?_⟩
    · exact ⟨("dependency cycle among derived values: ").data, (", b").data, by decide⟩
    · exact ⟨("dependency cycle among derived values: a, ").data, ([] : List Char), by decide⟩
  · intro p c opts r hcyc
    exact cycle_not_ok p c opts r hcyc
  · intro p opts r hA hB
    cases hdup : firstDup (scopeNames p) with
    | some x =>
      intro hok
      unfold compile analyze at hok
      rw [hdup] at hok
      exact Except.noConfusion hok
    | none =>
      have hnd : (scopeNames p).Nodup := firstDup_none_nodup _ hdup
      have hnd2 : (p.deriveds.map (fun d => d.name)).Nodup := by
        unfold scopeNames at hnd
        exact hnd.of_append_right
      apply cycle_not_ok p ["a", "b"] opts r
      refine ⟨by simp, ?_, ?_⟩
      · intro x hx
        rcases List.mem_cons.mp hx with h1 | h2
        · exact ⟨derivedA, hA, by rw [h1]; rfl⟩
        · have h2' : x = "b" := by simpa using h2
          exact ⟨derivedB, hB, by rw [h2']; rfl⟩
      · intro x hx d hd hname
        rcases List.mem_cons.mp hx with h1 | h2
        · have hde : d = derivedA := by
            apply List.inj_on_of_nodup_map hnd2 hd hA
            rw [hname, h1]
            rfl
          refine ⟨"b", by simp, ?_⟩
          rw [hde]
          simp [derivedA, exprIdents]
        · have h2' : x = "b" := by simpa using h2
          have hde : d = derivedB := by
            apply List.inj_on_of_nodup_map hnd2 hd hB
            rw [hname, h2']
            rfl
          refine ⟨"a", by simp, ?_⟩
          rw [hde]
          simp [derivedB, exprIdents]

theorem derived_cycle_rejected_witness :
    compile cycleProg ⟨Target.react, true⟩ =
      .error ⟨.SemanticError, "dependency cycle among derived values: a, b"⟩ ∧
      compile cycleProg ⟨Target.react, true⟩ ≠
        .ok ⟨"", 0, 0⟩ :=
  ⟨(derived_cycle_rejected.1 ⟨Target.react, true⟩).1,
    derived_cycle_rejected.2.1 cycleProg ["a", "b"] ⟨Target.react, true⟩ ⟨"", 0, 0⟩
      (by
        refine ⟨by simp, ?_, ?_⟩
        · decide
        · decide)⟩

theorem firstUndefined_some_of_only (env : List String) (x : String) :
    ∀ refs : List String, x ∈ refs → x ∉ env →
      (∀ y ∈ refs, y ∉ env → y = x) →
      firstUndefined env refs = some x := by
  intro refs
  induction refs with
  | nil => intro h; cases h
  | cons r rs ih =>
    intro hx hnx honly
    unfold firstUndefined
    by_cases hr : r ∈ env
    · rw [if_pos hr]
      have hxr : x ≠ r := fun h => hnx (h ▸ hr)
      have hxs : x ∈ rs := by
        rcases List.mem_cons.mp hx with h1 | h2
        · exact absurd h1 hxr
        · exact h2
      exact ih hxs hnx (fun y hy hny => honly y (List.mem_cons_of_mem _ hy) hny)
    · rw [if_neg hr]
      rw [honly r (List.mem_cons_self _ _) hr]

/-- Claim C7: the todo-style page whose check references the declared
list-typed state variable items compiles successfully for every target;
and whenever a check references an identifier that is not declared in the
scope (and is the page's only unresolved reference, with no duplicate
declarations), compile fails for every target and validate flag with the
same SemanticError naming that identifier — so the failure happens in
analysis, before any code generation. -/
theorem check_resolution :
    (∀ t : Target, ∃ r, compile todoProg ⟨t, true⟩ = .ok r) ∧
      (∀ (p : Program) (x : String) (t : Target) (v : Bool),
        x ∈ checkRefs p → x ∉ scopeNames p →
        (∀ y ∈ allRefs p, y ∉ scopeNames p → y = x) →
        firstDup (scopeNames p) = none →
        compile p ⟨t, v⟩ = .error ⟨.SemanticError, "undefined identifier: " ++ x⟩) := by
  constructor
  · intro t
    cases t with
    | react => exact ⟨_, rfl⟩
    | vue => exact ⟨_, rfl⟩
    | svelte => exact ⟨_, rfl⟩
  · intro p x t v hx hnx honly hdup
    have hxall : x ∈ allRefs p := by
      unfold allRefs
      exact List.mem_append_right _ hx
    have hfu : firstUndefined (scopeNames p) (allRefs p) = some x :=
      firstUndefined_some_of_only (scopeNames p) x (allRefs p) hxall hnx honly
    unfold compile analyze
    rw [hdup, hfu]

theorem check_resolution_witness :
    compile undeclProg ⟨Target.react, true⟩ =
      .error ⟨.SemanticError, "undefined identifier: foo"⟩ :=
  check_resolution.2 undeclProg ("foo") Target.react true
    (by decide) (by decide) (by decide) (by decide)

/-- Claim C4: compile is a pure, deterministic function of source and
options — any two calls with the same arguments return byte-identical
code and equal line and token counts (the model is a function of its two
arguments only, so there is no shared mutable state across calls by
construction). -/
theorem compile_deterministic (p : Program) (opts : CompileOptions) (r₁ r₂ : CompileOutput)
    (h₁ : compile p opts = .ok r₁) (h₂ : compile p opts = .ok r₂) :
    r₁.code = r₂.code ∧ r₁.lineCount = r₂.lineCount ∧ r₁.tokenCount = r₂.tokenCount := by
  rw [h₁] at h₂
  rw [Except.ok.inj h₂]
  exact ⟨rfl, rfl, rfl⟩

theorem compile_deterministic_witness :
    (⟨"<script>\n</script>\n", 2, 2⟩ : CompileOutput).code =
      (⟨"<script>\n</script>\n", 2, 2⟩ : CompileOutput).code :=
  (compile_deterministic emptyProg ⟨Target.svelte, true⟩
    ⟨"<script>\n</script>\n", 2, 2⟩ ⟨"<script>\n</script>\n", 2, 2⟩ rfl rfl).1

end ZeroX
